import Mathlib

/-!
Verification development for the Golf MCP telemetry instrumentation layer
(`src/golf/telemetry/instrumentation.py`).

The Python module is shallowly embedded:

* Python runtime values that can flow through the result summarizers are
  modelled by `PyVal`; `str()`, `type(...).__name__` and `len()` are modelled
  by `pyStr`, `pyTypeName` and `pyLen`.  For non-scalar values `pyStr`
  abstracts Python's repr-based rendering; no claim depends on the rendered
  text of a non-scalar value.
* A wrapped invocation is modelled as a pure function from the invocation
  data (component name, callable metadata, argument counts, optional
  context argument, baggage, metrics availability, elapsed time, and the
  outcome of the wrapped callable) to the sequence of span operations, the
  sequence of metric operations, and the propagated outcome.  The tracing
  SDK itself (span objects, exporters) is an external collaborator per the
  spec; only the calls the instrumentation layer makes to it are recorded.
* The Starlette session-tracking middleware state is modelled by
  `SessState`.  Python's `set` type does not guarantee any iteration
  order, so every place the code iterates a set (`list(self.seen_sessions)`)
  is parameterized by an enumeration function `enum`; any permutation of the
  set's elements is a possible behavior of the interpreter.
-/

namespace GolfTelemetry

/-- An attribute value as passed to `span.set_attribute`: the code only ever
passes strings, ints/naturals and booleans. -/
inductive AttrVal where
  | s (v : String)
  | n (v : Nat)
  | b (v : Bool)
  deriving DecidableEq, Repr

/-- A Python exception as observed by the instrumentation layer: the code
only reads `type(e).__name__` and `str(e)`. -/
structure Exc where
  typeName : String
  message : String
  deriving DecidableEq, Repr

/-- The calls the instrumentation layer makes on the active span (the span
object itself belongs to the external tracing SDK). -/
inductive SpanOp where
  | setAttr (key : String) (val : AttrVal)
  | addEvent (name : String) (attrs : List (String × AttrVal))
  | recordException (e : Exc)
  | setStatus (ok : Bool) (msg : String)
  deriving DecidableEq, Repr

/-- The calls the instrumentation layer makes on the optional metrics
collector. -/
inductive MetricOp where
  | incrementToolExecution (name outcome : String)
  | recordToolDuration (name : String) (seconds : Nat)
  | incrementError (category errType : String)
  | incrementSession
  | recordSessionDuration (seconds : Nat)
  | incrementHttpRequest (method : String) (statusCode : Nat) (path : String)
  | recordHttpDuration (method path : String) (seconds : Nat)
  deriving DecidableEq, Repr

/-- Python runtime values as far as the summarizers inspect them.
Dictionary keys are modelled as strings (`str(k)` is then the key itself);
`obj` stands for any other object, carrying its type name, its `len()` if it
defines one, and its `role` attribute if it has one (only prompt
summarization reads `role`). -/
inductive PyVal where
  | str (s : String)
  | int (n : Int)
  | float (printed : String)
  | bool (b : Bool)
  | bytes (size : Nat)
  | list (xs : List PyVal)
  | dict (entries : List (String × PyVal))
  | none
  | obj (typeName : String) (length : Option Nat) (role : Option String)
  deriving Repr

/-- Python `v is None` (`None` is a singleton, so the identity test is a
constructor test). -/
def isNone : PyVal → Bool
  | .none => true
  | _ => false

/-- Python `str()` on the values the code stringifies.  Exact for scalars
and `None`; for containers and objects it abstracts the repr-based
rendering (no claim inspects those strings). -/
def pyStr : PyVal → String
  | .str s => s
  | .int n => toString n
  | .float printed => printed
  | .bool b => if b then "True" else "False"
  | .bytes size => "bytes:" ++ toString size
  | .list _ => "<list>"
  | .dict _ => "<dict>"
  | .none => "None"
  | .obj t _ _ => "<" ++ t ++ ">"

/-- Python `type(v).__name__`. -/
def pyTypeName : PyVal → String
  | .str _ => "str"
  | .int _ => "int"
  | .float _ => "float"
  | .bool _ => "bool"
  | .bytes _ => "bytes"
  | .list _ => "list"
  | .dict _ => "dict"
  | .none => "NoneType"
  | .obj t _ _ => t

/-- Python `len(v)` on values that define `__len__` (`none` result means
`hasattr(v, "__len__")` is false). -/
def pyLen : PyVal → Option Nat
  | .str s => some s.length
  | .bytes size => some size
  | .list xs => some xs.length
  | .dict entries => some entries.length
  | .obj _ length _ => length
  | _ => Option.none

/-- `isinstance(v, str | int | float | bool)`. -/
def isScalar : PyVal → Bool
  | .str _ | .int _ | .float _ | .bool _ => true
  | _ => false

/-- `isinstance(v, list)`. -/
def isList : PyVal → Bool
  | .list _ => true
  | _ => false

/-- `isinstance(v, dict)`. -/
def isDict : PyVal → Bool
  | .dict _ => true
  | _ => false

/-- `isinstance(v, str)`. -/
def isStr : PyVal → Bool
  | .str _ => true
  | _ => false

/-- `isinstance(v, bytes)`. -/
def isBytes : PyVal → Bool
  | .bytes _ => true
  | _ => false

/-- `len(s)` for a Python string: its number of code points. -/
def strLen (s : String) : Nat := s.toList.length

/-- `s[:n]` for a Python string. -/
def strTake (s : String) (n : Nat) : String := String.mk (s.toList.take n)

/-- `s[n:]` for a Python string. -/
def strDrop (s : String) (n : Nat) : String := String.mk (s.toList.drop n)

/-- `s.lower()` (the environment values compared here are ASCII, for which
`Char.toLower` agrees with Python). -/
def strLower (s : String) : String := String.mk (s.toList.map Char.toLower)

/-- `s.startswith("/")`. -/
def startsWithSlash (s : String) : Bool :=
  match s.toList with
  | c :: _ => c = '/'
  | [] => false

/-- `s.split("?")[0]`: the prefix of `s` before its first `?` (all of `s`
when it has none). -/
def beforeQuery (s : String) : String :=
  String.mk (s.toList.takeWhile (· ≠ '?'))

/-- `sep.join(parts)`. -/
def joinSep (sep : String) : List String → String
  | [] => ""
  | [x] => x
  | x :: xs => x ++ sep ++ joinSep sep xs

/-- Key truncation used for `mcp.tool.result.sample_keys`:
`str(k)[:20] + "..." if len(str(k)) > 20 else str(k)`. -/
def truncKey (s : String) : String :=
  if strLen s > 20 then strTake s 20 ++ "..." else s

/-- The tool result summarization block (`if result is not None: ...` in both
`async_wrapper` and `sync_wrapper` of `instrument_tool`). -/
def summarizeToolResult (result : PyVal) : List SpanOp :=
  if isNone result then []
  else
    (if isScalar result then
      [.setAttr "mcp.tool.result.value" (.s (pyStr result)),
       .setAttr "mcp.tool.result.type" (.s (pyTypeName result))]
     else if isList result then
      [.setAttr "mcp.tool.result.count" (.n ((pyLen result).getD 0)),
       .setAttr "mcp.tool.result.type" (.s "array")]
     else if isDict result then
      [.setAttr "mcp.tool.result.count" (.n ((pyLen result).getD 0)),
       .setAttr "mcp.tool.result.type" (.s "object")] ++
      (match result with
       | .dict entries =>
         if entries.length > 0 ∧ entries.length ≤ 5 then
           [.setAttr "mcp.tool.result.sample_keys"
             (.s (joinSep ","
               (((entries.map Prod.fst).take 5).map truncKey)))]
         else []
       | _ => [])
     else if (pyLen result).isSome then
      [.setAttr "mcp.tool.result.length" (.n ((pyLen result).getD 0))]
     else []) ++
    [.setAttr "mcp.tool.result.class" (.s (pyTypeName result))]

/-- Metadata of the wrapped callable: `func.__name__`, and `func.__module__`
when the attribute exists (the code falls back to `"unknown"`). -/
structure FuncInfo where
  funcName : String
  module : Option String
  deriving DecidableEq, Repr

/-- The recognized execution-context argument (`kwargs.get("ctx")`).  Each
field is `some v` when `hasattr(ctx, field)` holds with `getattr` value `v`,
and `Option.none` when the attribute is missing. -/
structure Ctx where
  request_id : Option PyVal
  session_id : Option PyVal
  client_id : Option PyVal
  user_id : Option PyVal
  tenant_id : Option PyVal
  deriving Repr

/-- One iteration of the `for attr in ctx_attrs` loop: attach
`str(value)` under `mcp.context.<attr>` when the attribute exists and its
value is not `None`. -/
def ctxFieldOp (key : String) (v : Option PyVal) : List SpanOp :=
  match v with
  | some v => if isNone v then [] else [.setAttr key (.s (pyStr v))]
  | Option.none => []

/-- The whole context-extraction loop over the fixed allow-list
`["request_id", "session_id", "client_id", "user_id", "tenant_id"]`. -/
def ctxOps (c : Ctx) : List SpanOp :=
  ctxFieldOp "mcp.context.request_id" c.request_id ++
  ctxFieldOp "mcp.context.session_id" c.session_id ++
  ctxFieldOp "mcp.context.client_id" c.client_id ++
  ctxFieldOp "mcp.context.user_id" c.user_id ++
  ctxFieldOp "mcp.context.tenant_id" c.tenant_id

/-- `session_id_from_baggage = baggage.get_baggage("mcp.session.id");
if session_id_from_baggage: ...` — a `none` or empty-string baggage value is
falsy and attaches nothing. -/
def baggageOps (bag : Option String) : List SpanOp :=
  match bag with
  | some s => if s = "" then [] else [.setAttr "mcp.session.id" (.s s)]
  | Option.none => []

/-- The data of one invocation of a wrapped callable: `len(args)`,
`len(kwargs)`, and the recognized `ctx` keyword argument when present and
truthy. -/
structure CallInput where
  argsCount : Nat
  kwargsCount : Nat
  ctx : Option Ctx

/-- Everything one invocation of a wrapped callable emits: the span name,
the span operations in order, the metric-collector calls in order, and the
outcome propagated to the caller. -/
structure WrapResult where
  spanName : String
  spanOps : List SpanOp
  metricOps : List MetricOp
  result : Except Exc PyVal

/-- `async_wrapper` of `instrument_tool`: one awaited invocation, given the
outcome of `await func(*args, **kwargs)` and the wall-clock `elapsed` time
around it.  `metricsAvail` is false when `golf.metrics` raises
`ImportError`. -/
def asyncToolOps (toolName : String) (fi : FuncInfo) (input : CallInput)
    (bag : Option String) (metricsAvail : Bool) (elapsed : Nat)
    (outcome : Except Exc PyVal) : WrapResult :=
  let pre : List SpanOp :=
    [.setAttr "mcp.component.type" (.s "tool"),
     .setAttr "mcp.component.name" (.s toolName),
     .setAttr "mcp.tool.name" (.s toolName),
     .setAttr "mcp.tool.function" (.s fi.funcName),
     .setAttr "mcp.tool.module" (.s (fi.module.getD "unknown")),
     .setAttr "mcp.execution.args_count" (.n input.argsCount),
     .setAttr "mcp.execution.kwargs_count" (.n input.kwargsCount),
     .setAttr "mcp.execution.async" (.b true)] ++
    (match input.ctx with
     | some c => ctxOps c
     | Option.none => []) ++
    baggageOps bag ++
    [.addEvent "tool.execution.started" [("tool.name", .s toolName)]]
  match outcome with
  | .ok result =>
    { spanName := "mcp.tool." ++ toolName ++ ".execute"
      spanOps := pre ++
        [.setStatus true "",
         .addEvent "tool.execution.completed" [("tool.name", .s toolName)]] ++
        summarizeToolResult result
      metricOps :=
        if metricsAvail then
          [.incrementToolExecution toolName "success",
           .recordToolDuration toolName elapsed]
        else []
      result := .ok result }
  | .error e =>
    { spanName := "mcp.tool." ++ toolName ++ ".execute"
      spanOps := pre ++
        [.recordException e,
         .setStatus false e.message,
         .addEvent "tool.execution.error"
           [("tool.name", .s toolName),
            ("error.type", .s e.typeName),
            ("error.message", .s e.message)]]
      metricOps :=
        if metricsAvail then
          [.incrementToolExecution toolName "error",
           .incrementError "tool" e.typeName]
        else []
      result := .error e }

/-- `sync_wrapper` of `instrument_tool`: identical to `async_wrapper` except
that the handler is called directly and `mcp.execution.async` is `False`. -/
def syncToolOps (toolName : String) (fi : FuncInfo) (input : CallInput)
    (bag : Option String) (metricsAvail : Bool) (elapsed : Nat)
    (outcome : Except Exc PyVal) : WrapResult :=
  let pre : List SpanOp :=
    [.setAttr "mcp.component.type" (.s "tool"),
     .setAttr "mcp.component.name" (.s toolName),
     .setAttr "mcp.tool.name" (.s toolName),
     .setAttr "mcp.tool.function" (.s fi.funcName),
     .setAttr "mcp.tool.module" (.s (fi.module.getD "unknown")),
     .setAttr "mcp.execution.args_count" (.n input.argsCount),
     .setAttr "mcp.execution.kwargs_count" (.n input.kwargsCount),
     .setAttr "mcp.execution.async" (.b false)] ++
    (match input.ctx with
     | some c => ctxOps c
     | Option.none => []) ++
    baggageOps bag ++
    [.addEvent "tool.execution.started" [("tool.name", .s toolName)]]
  match outcome with
  | .ok result =>
    { spanName := "mcp.tool." ++ toolName ++ ".execute"
      spanOps := pre ++
        [.setStatus true "",
         .addEvent "tool.execution.completed" [("tool.name", .s toolName)]] ++
        summarizeToolResult result
      metricOps :=
        if metricsAvail then
          [.incrementToolExecution toolName "success",
           .recordToolDuration toolName elapsed]
        else []
      result := .ok result }
  | .error e =>
    { spanName := "mcp.tool." ++ toolName ++ ".execute"
      spanOps := pre ++
        [.recordException e,
         .setStatus false e.message,
         .addEvent "tool.execution.error"
           [("tool.name", .s toolName),
            ("error.type", .s e.typeName),
            ("error.message", .s e.message)]]
      metricOps :=
        if metricsAvail then
          [.incrementToolExecution toolName "error",
           .incrementError "tool" e.typeName]
        else []
      result := .error e }

/-- `is_template = "{" in resource_uri` (the brace character written by
code point to keep it out of string literals). -/
def isTemplate (resourceUri : String) : Bool :=
  resourceUri.toList.any (· = Char.ofNat 123)

/-- The resource result-metadata block shared by both wrappers of
`instrument_resource`: a `len()`-based size first, then a fixed type marker
for `str` / `bytes` / `dict` / `list` results (any other type attaches no
type marker). -/
def summarizeResourceResult (result : PyVal) : List SpanOp :=
  (if (pyLen result).isSome then
    [.setAttr "mcp.resource.result.size" (.n ((pyLen result).getD 0))]
   else []) ++
  (if isStr result then
    [.setAttr "mcp.resource.result.type" (.s "text"),
     .setAttr "mcp.resource.result.length" (.n ((pyLen result).getD 0))]
   else if isBytes result then
    [.setAttr "mcp.resource.result.type" (.s "binary"),
     .setAttr "mcp.resource.result.size_bytes" (.n ((pyLen result).getD 0))]
   else if isDict result then
    [.setAttr "mcp.resource.result.type" (.s "object"),
     .setAttr "mcp.resource.result.keys_count" (.n ((pyLen result).getD 0))]
   else if isList result then
    [.setAttr "mcp.resource.result.type" (.s "array"),
     .setAttr "mcp.resource.result.items_count" (.n ((pyLen result).getD 0))]
   else [])

/-- `async_wrapper` of `instrument_resource`. -/
def asyncResourceOps (resourceUri : String) (fi : FuncInfo) (input : CallInput)
    (bag : Option String) (outcome : Except Exc PyVal) : WrapResult :=
  let pre : List SpanOp :=
    [.setAttr "mcp.component.type" (.s "resource"),
     .setAttr "mcp.component.name" (.s resourceUri),
     .setAttr "mcp.resource.uri" (.s resourceUri),
     .setAttr "mcp.resource.is_template" (.b (isTemplate resourceUri)),
     .setAttr "mcp.resource.function" (.s fi.funcName),
     .setAttr "mcp.resource.module" (.s (fi.module.getD "unknown")),
     .setAttr "mcp.execution.async" (.b true)] ++
    (match input.ctx with
     | some c => ctxOps c
     | Option.none => []) ++
    baggageOps bag ++
    [.addEvent "resource.read.started" [("resource.uri", .s resourceUri)]]
  let spanName :=
    "mcp.resource." ++ (if isTemplate resourceUri then "template" else "static") ++ ".read"
  match outcome with
  | .ok result =>
    { spanName := spanName
      spanOps := pre ++
        [.setStatus true "",
         .addEvent "resource.read.completed" [("resource.uri", .s resourceUri)]] ++
        summarizeResourceResult result
      metricOps := []
      result := .ok result }
  | .error e =>
    { spanName := spanName
      spanOps := pre ++
        [.recordException e,
         .setStatus false e.message,
         .addEvent "resource.read.error"
           [("resource.uri", .s resourceUri),
            ("error.type", .s e.typeName),
            ("error.message", .s e.message)]]
      metricOps := []
      result := .error e }

/-- `sync_wrapper` of `instrument_resource`. -/
def syncResourceOps (resourceUri : String) (fi : FuncInfo) (input : CallInput)
    (bag : Option String) (outcome : Except Exc PyVal) : WrapResult :=
  let pre : List SpanOp :=
    [.setAttr "mcp.component.type" (.s "resource"),
     .setAttr "mcp.component.name" (.s resourceUri),
     .setAttr "mcp.resource.uri" (.s resourceUri),
     .setAttr "mcp.resource.is_template" (.b (isTemplate resourceUri)),
     .setAttr "mcp.resource.function" (.s fi.funcName),
     .setAttr "mcp.resource.module" (.s (fi.module.getD "unknown")),
     .setAttr "mcp.execution.async" (.b false)] ++
    (match input.ctx with
     | some c => ctxOps c
     | Option.none => []) ++
    baggageOps bag ++
    [.addEvent "resource.read.started" [("resource.uri", .s resourceUri)]]
  let spanName :=
    "mcp.resource." ++ (if isTemplate resourceUri then "template" else "static") ++ ".read"
  match outcome with
  | .ok result =>
    { spanName := spanName
      spanOps := pre ++
        [.setStatus true "",
         .addEvent "resource.read.completed" [("resource.uri", .s resourceUri)]] ++
        summarizeResourceResult result
      metricOps := []
      result := .ok result }
  | .error e =>
    { spanName := spanName
      spanOps := pre ++
        [.recordException e,
         .setStatus false e.message,
         .addEvent "resource.read.error"
           [("resource.uri", .s resourceUri),
            ("error.type", .s e.typeName),
            ("error.message", .s e.message)]]
      metricOps := []
      result := .error e }

/-- Role of one message in a prompt result:
`msg.role` if `hasattr(msg, "role")`, else `msg["role"]` for dict messages
(rendered with `pyStr`; MCP message roles are strings, for which `pyStr` is
exact). -/
def msgRole : PyVal → Option String
  | .obj _ _ (some r) => some r
  | .dict entries => (entries.lookup "role").map pyStr
  | _ => Option.none

/-- Rendering of the `role: count` map attached as
`mcp.prompt.result.role_counts`.  Python renders `str(dict)`; the exact
repr text is abstracted here (no claim inspects it), but the content — one
entry per distinct role with its multiplicity — is the same. -/
def roleCountsRepr (uniqueRoles : List String) (roles : List String) : String :=
  joinSep ","
    (uniqueRoles.map (fun r => r ++ "=" ++ toString (roles.count r)))

/-- The prompt result-metadata block shared by both wrappers of
`instrument_prompt`.  `list(set(roles))` iterates a Python set, whose order
is arbitrary; `List.eraseDups` (first-occurrence order) is one admissible
order, and no claim depends on the chosen order. -/
def summarizePromptResult (result : PyVal) : List SpanOp :=
  match result with
  | .list msgs =>
    [.setAttr "mcp.prompt.result.message_count" (.n msgs.length),
     .setAttr "mcp.prompt.result.type" (.s "message_list")] ++
    (let roles := msgs.filterMap msgRole
     if roles.isEmpty then []
     else
       let uniqueRoles := roles.eraseDups
       [.setAttr "mcp.prompt.result.roles" (.s (joinSep "," uniqueRoles)),
        .setAttr "mcp.prompt.result.role_counts"
          (.s (roleCountsRepr uniqueRoles roles))])
  | .str s =>
    [.setAttr "mcp.prompt.result.type" (.s "string"),
     .setAttr "mcp.prompt.result.length" (.n s.length)]
  | r =>
    [.setAttr "mcp.prompt.result.type" (.s (pyTypeName r))]

/-- `async_wrapper` of `instrument_prompt`. -/
def asyncPromptOps (promptName : String) (fi : FuncInfo) (input : CallInput)
    (bag : Option String) (outcome : Except Exc PyVal) : WrapResult :=
  let pre : List SpanOp :=
    [.setAttr "mcp.component.type" (.s "prompt"),
     .setAttr "mcp.component.name" (.s promptName),
     .setAttr "mcp.prompt.name" (.s promptName),
     .setAttr "mcp.prompt.function" (.s fi.funcName),
     .setAttr "mcp.prompt.module" (.s (fi.module.getD "unknown")),
     .setAttr "mcp.execution.async" (.b true)] ++
    (match input.ctx with
     | some c => ctxOps c
     | Option.none => []) ++
    baggageOps bag ++
    [.addEvent "prompt.generation.started" [("prompt.name", .s promptName)]]
  match outcome with
  | .ok result =>
    { spanName := "mcp.prompt." ++ promptName ++ ".generate"
      spanOps := pre ++
        [.setStatus true "",
         .addEvent "prompt.generation.completed" [("prompt.name", .s promptName)]] ++
        summarizePromptResult result
      metricOps := []
      result := .ok result }
  | .error e =>
    { spanName := "mcp.prompt." ++ promptName ++ ".generate"
      spanOps := pre ++
        [.recordException e,
         .setStatus false e.message,
         .addEvent "prompt.generation.error"
           [("prompt.name", .s promptName),
            ("error.type", .s e.typeName),
            ("error.message", .s e.message)]]
      metricOps := []
      result := .error e }

/-- `sync_wrapper` of `instrument_prompt`. -/
def syncPromptOps (promptName : String) (fi : FuncInfo) (input : CallInput)
    (bag : Option String) (outcome : Except Exc PyVal) : WrapResult :=
  let pre : List SpanOp :=
    [.setAttr "mcp.component.type" (.s "prompt"),
     .setAttr "mcp.component.name" (.s promptName),
     .setAttr "mcp.prompt.name" (.s promptName),
     .setAttr "mcp.prompt.function" (.s fi.funcName),
     .setAttr "mcp.prompt.module" (.s (fi.module.getD "unknown")),
     .setAttr "mcp.execution.async" (.b false)] ++
    (match input.ctx with
     | some c => ctxOps c
     | Option.none => []) ++
    baggageOps bag ++
    [.addEvent "prompt.generation.started" [("prompt.name", .s promptName)]]
  match outcome with
  | .ok result =>
    { spanName := "mcp.prompt." ++ promptName ++ ".generate"
      spanOps := pre ++
        [.setStatus true "",
         .addEvent "prompt.generation.completed" [("prompt.name", .s promptName)]] ++
        summarizePromptResult result
      metricOps := []
      result := .ok result }
  | .error e =>
    { spanName := "mcp.prompt." ++ promptName ++ ".generate"
      spanOps := pre ++
        [.recordException e,
         .setStatus false e.message,
         .addEvent "prompt.generation.error"
           [("prompt.name", .s promptName),
            ("error.type", .s e.typeName),
            ("error.message", .s e.message)]]
      metricOps := []
      result := .error e }

/-- The value a component instrumentor returns: either the untouched
original handler (disabled path) or an instrumented wrapper around it. -/
inductive WrapOutcome (α : Type) where
  | original (f : α)
  | instrumented (f : α)
  deriving DecidableEq

/-- An opaque handle standing for a configured `TracerProvider` (owned by
the external tracing SDK). -/
structure ProviderHandle where
  id : Nat
  deriving DecidableEq, Repr

/-- `instrument_tool`'s wrapping decision: `if _provider is None: return
func`, otherwise build and return a wrapper (whose per-invocation behavior
is `asyncToolOps` / `syncToolOps`). -/
def instrument_tool (provider : Option ProviderHandle) (func : α)
    (_toolName : String) : WrapOutcome α :=
  match provider with
  | Option.none => .original func
  | some _ => .instrumented func

/-- `instrument_resource`'s wrapping decision. -/
def instrument_resource (provider : Option ProviderHandle) (func : α)
    (_resourceUri : String) : WrapOutcome α :=
  match provider with
  | Option.none => .original func
  | some _ => .instrumented func

/-- `instrument_prompt`'s wrapping decision. -/
def instrument_prompt (provider : Option ProviderHandle) (func : α)
    (_promptName : String) : WrapOutcome α :=
  match provider with
  | Option.none => .original func
  | some _ => .instrumented func

/-- The environment variables `init_telemetry` reads (`os.environ.get`
returns `none` for an unset variable). -/
structure OtelEnv where
  golf_api_key : Option String
  traces_exporter : Option String
  otlp_endpoint : Option String
  otlp_headers : Option String
  deriving Repr

/-- Python truthiness of an `os.environ.get` result: unset (`None`) and the
empty string are falsy. -/
def truthy : Option String → Bool
  | some s => s ≠ ""
  | Option.none => false

/-- The Golf-platform auto-configuration block at the top of
`init_telemetry`: with a truthy `GOLF_API_KEY` and a falsy
`OTEL_EXPORTER_OTLP_ENDPOINT`, the exporter kind, endpoint and headers are
written into the environment. -/
def autoConfigure (env : OtelEnv) : OtelEnv :=
  if truthy env.golf_api_key ∧ ¬ truthy env.otlp_endpoint then
    { env with
      traces_exporter := some "otlp_http",
      otlp_endpoint := some "http://localhost:8000/api/v1/otel",
      otlp_headers := some ("X-Golf-Key=" ++ (env.golf_api_key.getD "")) }
  else env

/-- `init_telemetry`: after optional auto-configuration, an `otlp_http`
exporter kind with a falsy endpoint returns `None` (tracing disabled);
otherwise the provider is constructed.  Exporter/processor/provider
construction belongs to the external SDK and may throw, which the code
re-raises: that stage is abstracted by the `backend` argument. -/
def init_telemetry (env : OtelEnv)
    (backend : Except String ProviderHandle) :
    Except String (Option ProviderHandle) :=
  let env := autoConfigure env
  let exporterType := strLower (env.traces_exporter.getD "console")
  if exporterType = "otlp_http" ∧ ¬ truthy env.otlp_endpoint then
    .ok Option.none
  else
    match backend with
    | .error msg => .error msg
    | .ok handle => .ok (some handle)

/-- Path normalization for HTTP metrics, as the middleware computes it:
`clean_path = path.split("?")[0]`, then
`if clean_path.startswith("/"): clean_path = clean_path[1:] or "root"`. -/
def normalizePath (path : String) : String :=
  let cleanPath := beforeQuery path
  if startsWithSlash cleanPath then
    let stripped := strDrop cleanPath 1
    if stripped = "" then "root" else stripped
  else cleanPath

/-- The normalization claimed by the spec, word for word: strip the query
string, strip one leading slash if present, and map an empty result to the
root marker (unconditionally). -/
def normalizePathClaimed (path : String) : String :=
  let cleanPath := beforeQuery path
  let stripped := if startsWithSlash cleanPath then strDrop cleanPath 1 else cleanPath
  if stripped = "" then "root" else stripped

/-- The amended normalization: the root marker is substituted only when the
pre-query prefix started with a slash and nothing remains after removing
it; a prefix not starting with a slash is returned unchanged, even when
empty. -/
def normalizePathAmended (path : String) : String :=
  let cleanPath := beforeQuery path
  if startsWithSlash cleanPath then
    let stripped := strDrop cleanPath 1
    if stripped = "" then "root" else stripped
  else cleanPath

/-- `dispatch`'s classification of an observed session id relative to the
registry, with the duration passed to `record_session_duration` when one is
recorded. -/
inductive SessionEvent where
  | new
  | continuing (duration : Option Nat)
  | noSession
  deriving DecidableEq, Repr

/-- The mutable state of `SessionTracingMiddleware`: `seen_sessions`
(a Python `set`, modelled as its elements in insertion order — only
membership is meaningful to the set itself) and `session_start_times`
(a dict from session id to first-seen timestamp, in insertion order). -/
structure SessState where
  seen : List Nat
  startTimes : List (Nat × Nat)
  deriving DecidableEq, Repr

/-- The state `__init__` creates: both containers empty. -/
def emptySess : SessState := ⟨[], []⟩

/-- The last `k` elements of a list (`xs[-k:]` for `k ≤ len(xs)`). -/
def lastN (k : Nat) (l : List α) : List α := l.drop (l.length - k)

/-- Registry cap `M`: compaction runs when `len(seen_sessions) > 10000`. -/
def SESSION_CAP : Nat := 10000

/-- Retained size `K`: compaction keeps `list(seen_sessions)[-5000:]`. -/
def SESSION_KEEP : Nat := 5000

/-- Python dict lookup. -/
def lookupKey (k : Nat) : List (Nat × Nat) → Option Nat
  | [] => Option.none
  | (k2, v) :: rest => if k2 = k then some v else lookupKey k rest

/-- Python dict assignment `d[k] = v`: overwrite in place when the key
exists, append otherwise. -/
def dictSet (l : List (Nat × Nat)) (k v : Nat) : List (Nat × Nat) :=
  if l.any (fun p => p.1 = k) then
    l.map (fun p => if p.1 = k then (p.1, v) else p)
  else l ++ [(k, v)]

/-- The session-tracking block of `dispatch` for one request carrying
session id `sid` at time `now`.  `enum` models the arbitrary iteration
order of the Python set `seen_sessions` in `list(self.seen_sessions)`:
the interpreter guarantees only that it enumerates each element exactly
once, i.e. that `enum l` is a permutation of `l`.

* unseen id: add to `seen_sessions`, record the start time, event `new`;
* seen id: event `continuing` with `now - start` when the start time is
  still recorded;
* afterwards (on every request with a session id), if the registry size
  exceeds `SESSION_CAP`, keep `list(seen_sessions)[-SESSION_KEEP:]` and
  drop start-time entries whose id was not retained. -/
def observe (enum : List Nat → List Nat) (st : SessState) (sid : Nat)
    (now : Nat) : SessState × SessionEvent :=
  let (st1, ev) :=
    if sid ∈ st.seen then
      (st, SessionEvent.continuing ((lookupKey sid st.startTimes).map (fun t0 => now - t0)))
    else
      ({ seen := st.seen ++ [sid], startTimes := dictSet st.startTimes sid now },
       SessionEvent.new)
  let st2 :=
    if st1.seen.length > SESSION_CAP then
      let retained := lastN SESSION_KEEP (enum st1.seen)
      { seen := st1.seen.filter (fun s => s ∈ retained),
        startTimes := st1.startTimes.filter (fun p => p.1 ∈ retained) }
    else st1
  (st2, ev)

/-- One `dispatch` as far as session state is concerned: a request without
a session id (neither query parameter nor header) mutates nothing. -/
def observeOpt (enum : List Nat → List Nat) (st : SessState)
    (sid : Option Nat) (now : Nat) : SessState × SessionEvent :=
  match sid with
  | Option.none => (st, SessionEvent.noSession)
  | some sid => observe enum st sid now

/-- The session state after a sequence of requests, each carrying a session
id (all at time 0; the seen/retained sets do not depend on timestamps). -/
def runSeq (enum : List Nat → List Nat) (st : SessState)
    (sids : List Nat) : SessState :=
  sids.foldl (fun st sid => (observe enum st sid 0).1) st

/-- The session state after an arbitrary sequence of dispatches
(optional session id, timestamp). -/
def runDispatch (enum : List Nat → List Nat) (st : SessState)
    (events : List (Option Nat × Nat)) : SessState :=
  events.foldl (fun st ev => (observeOpt enum st ev.1 ev.2).1) st

/-- First value attached under an attribute key within a span-operation
sequence (keys are attached at most once per span here). -/
def findAttr (key : String) : List SpanOp → Option AttrVal
  | [] => Option.none
  | .setAttr k v :: rest => if k = key then some v else findAttr key rest
  | _ :: rest => findAttr key rest

/-- Whether any operation attaches the given attribute key. -/
def hasAttrKey (key : String) (ops : List SpanOp) : Bool :=
  ops.any fun op =>
    match op with
    | .setAttr k _ => k = key
    | _ => false

/-- Whether any attached attribute carries the given string value. -/
def hasAttrStrVal (v : String) (ops : List SpanOp) : Bool :=
  ops.any fun op =>
    match op with
    | .setAttr _ (.s s) => s = v
    | _ => false

/-- The events named `name` within a span-operation sequence. -/
def eventsNamed (name : String) (ops : List SpanOp) : List SpanOp :=
  ops.filter fun op =>
    match op with
    | .addEvent n _ => n = name
    | _ => false

/-- The error event a wrapper emits: the component identity attribute
followed by the exception's type name and message. -/
def errorEvent (evName idKey idVal : String) (e : Exc) : SpanOp :=
  .addEvent evName
    [(idKey, .s idVal), ("error.type", .s e.typeName), ("error.message", .s e.message)]

/-- The failure contract of a wrapped invocation: the original exception is
propagated unchanged, it is recorded onto the span, span status is ERROR
with the exception's message, and exactly one error event is emitted,
carrying the exception's type name and message. -/
def ErrorContract (r : WrapResult) (evName idKey idVal : String) (e : Exc) : Prop :=
  r.result = .error e ∧
  SpanOp.recordException e ∈ r.spanOps ∧
  SpanOp.setStatus false e.message ∈ r.spanOps ∧
  eventsNamed evName r.spanOps = [errorEvent evName idKey idVal e]

/-- The span attributes a successful tool invocation with a mapping result
carries (stated over the full span-operation sequence of the invocation). -/
def DictSummaryContract (ops : List SpanOp) (entries : List (String × PyVal)) : Prop :=
  findAttr "mcp.tool.result.count" ops = some (.n entries.length) ∧
  findAttr "mcp.tool.result.type" ops = some (.s "object") ∧
  findAttr "mcp.tool.result.sample_keys" ops =
    (if 1 ≤ entries.length ∧ entries.length ≤ 5 then
      some (.s (joinSep "," ((entries.map Prod.fst).map truncKey)))
     else Option.none)

/-- Flips the value of the `mcp.execution.async` boolean attribute and
leaves every other span operation unchanged. -/
def flipAsyncOp (op : SpanOp) : SpanOp :=
  match op with
  | .setAttr k (.b v) => if k = "mcp.execution.async" then .setAttr k (.b !v) else op
  | _ => op

/-- The fixed attributes every tool invocation carries. -/
def ToolFixedAttrs (ops : List SpanOp) (toolName : String) (fi : FuncInfo)
    (input : CallInput) (isAsync : Bool) : Prop :=
  findAttr "mcp.component.type" ops = some (.s "tool") ∧
  findAttr "mcp.component.name" ops = some (.s toolName) ∧
  findAttr "mcp.tool.function" ops = some (.s fi.funcName) ∧
  findAttr "mcp.tool.module" ops = some (.s (fi.module.getD "unknown")) ∧
  findAttr "mcp.execution.args_count" ops = some (.n input.argsCount) ∧
  findAttr "mcp.execution.kwargs_count" ops = some (.n input.kwargsCount) ∧
  findAttr "mcp.execution.async" ops = some (.b isAsync)

/-- The fixed attributes every resource invocation carries --- no
argument-count or keyword-count attribute is among them. -/
def ResourceFixedAttrs (ops : List SpanOp) (resourceUri : String) (fi : FuncInfo)
    (isAsync : Bool) : Prop :=
  findAttr "mcp.component.type" ops = some (.s "resource") ∧
  findAttr "mcp.component.name" ops = some (.s resourceUri) ∧
  findAttr "mcp.resource.function" ops = some (.s fi.funcName) ∧
  findAttr "mcp.resource.module" ops = some (.s (fi.module.getD "unknown")) ∧
  findAttr "mcp.execution.async" ops = some (.b isAsync) ∧
  hasAttrKey "mcp.execution.args_count" ops = false ∧
  hasAttrKey "mcp.execution.kwargs_count" ops = false

/-- The fixed attributes every prompt invocation carries --- no
argument-count or keyword-count attribute is among them. -/
def PromptFixedAttrs (ops : List SpanOp) (promptName : String) (fi : FuncInfo)
    (isAsync : Bool) : Prop :=
  findAttr "mcp.component.type" ops = some (.s "prompt") ∧
  findAttr "mcp.component.name" ops = some (.s promptName) ∧
  findAttr "mcp.prompt.function" ops = some (.s fi.funcName) ∧
  findAttr "mcp.prompt.module" ops = some (.s (fi.module.getD "unknown")) ∧
  findAttr "mcp.execution.async" ops = some (.b isAsync) ∧
  hasAttrKey "mcp.execution.args_count" ops = false ∧
  hasAttrKey "mcp.execution.kwargs_count" ops = false

/-- Internal invariant of the middleware session state: the seen-set holds
no duplicates, the start-time dict has exactly the seen ids as keys in the
same order, and the registry size never exceeds the cap after a dispatch
completes. -/
def SessInv (st : SessState) : Prop :=
  st.seen.Nodup ∧ st.startTimes.map Prod.fst = st.seen ∧
  st.seen.length ≤ SESSION_CAP

theorem findAttr_append (key : String) (l₁ l₂ : List SpanOp) :
    findAttr key (l₁ ++ l₂) =
      match findAttr key l₁ with
      | some v => some v
      | Option.none => findAttr key l₂ := by
  induction l₁ with
  | nil => simp [findAttr]
  | cons op rest ih =>
    cases op with
    | setAttr k v =>
      by_cases h : k = key <;> simp [findAttr, h, ih]
    | addEvent n attrs => simp [findAttr, ih]
    | recordException e => simp [findAttr, ih]
    | setStatus ok msg => simp [findAttr, ih]

theorem eventsNamed_append (name : String) (l₁ l₂ : List SpanOp) :
    eventsNamed name (l₁ ++ l₂) = eventsNamed name l₁ ++ eventsNamed name l₂ := by
  simp [eventsNamed, List.filter_append]

theorem eventsNamed_nil (name : String) : eventsNamed name [] = [] := rfl

theorem eventsNamed_cons_setAttr (name k : String) (v : AttrVal) (rest : List SpanOp) :
    eventsNamed name (.setAttr k v :: rest) = eventsNamed name rest := rfl

theorem eventsNamed_cons_recordException (name : String) (e : Exc) (rest : List SpanOp) :
    eventsNamed name (.recordException e :: rest) = eventsNamed name rest := rfl

theorem eventsNamed_cons_setStatus (name : String) (ok : Bool) (msg : String)
    (rest : List SpanOp) :
    eventsNamed name (.setStatus ok msg :: rest) = eventsNamed name rest := rfl

theorem eventsNamed_cons_addEvent (name n : String) (attrs : List (String × AttrVal))
    (rest : List SpanOp) :
    eventsNamed name (.addEvent n attrs :: rest) =
      if n = name then .addEvent n attrs :: eventsNamed name rest
      else eventsNamed name rest := by
  by_cases h : n = name <;> simp [eventsNamed, List.filter_cons, h]

theorem ctxFieldOp_findAttr (key k : String) (v : Option PyVal) (h : k ≠ key) :
    findAttr key (ctxFieldOp k v) = Option.none := by
  cases v with
  | none => simp [ctxFieldOp, findAttr]
  | some v =>
    by_cases hn : isNone v = true <;> simp [ctxFieldOp, hn, findAttr, h]

theorem ctxFieldOp_eventsNamed (name k : String) (v : Option PyVal) :
    eventsNamed name (ctxFieldOp k v) = [] := by
  cases v with
  | none => simp [ctxFieldOp, eventsNamed]
  | some v =>
    by_cases hn : isNone v = true <;> simp [ctxFieldOp, hn, eventsNamed]

theorem ctxOps_findAttr (key : String) (c : Ctx)
    (h : ¬ (key = "mcp.context.request_id" ∨ key = "mcp.context.session_id" ∨
      key = "mcp.context.client_id" ∨ key = "mcp.context.user_id" ∨
      key = "mcp.context.tenant_id")) :
    findAttr key (ctxOps c) = Option.none := by
  push_neg at h
  obtain ⟨h1, h2, h3, h4, h5⟩ := h
  simp [ctxOps, findAttr_append,
    ctxFieldOp_findAttr _ _ _ (fun hh => h1 hh.symm),
    ctxFieldOp_findAttr _ _ _ (fun hh => h2 hh.symm),
    ctxFieldOp_findAttr _ _ _ (fun hh => h3 hh.symm),
    ctxFieldOp_findAttr _ _ _ (fun hh => h4 hh.symm),
    ctxFieldOp_findAttr _ _ _ (fun hh => h5 hh.symm)]

theorem ctxOps_eventsNamed (name : String) (c : Ctx) :
    eventsNamed name (ctxOps c) = [] := by
  simp [ctxOps, eventsNamed_append, ctxFieldOp_eventsNamed]

theorem baggageOps_findAttr (key : String) (bag : Option String)
    (h : key ≠ "mcp.session.id") :
    findAttr key (baggageOps bag) = Option.none := by
  cases bag with
  | none => simp [baggageOps, findAttr]
  | some s =>
    by_cases he : s = "" <;>
      simp [baggageOps, he, findAttr, Ne.symm h]

theorem baggageOps_eventsNamed (name : String) (bag : Option String) :
    eventsNamed name (baggageOps bag) = [] := by
  cases bag with
  | none => simp [baggageOps, eventsNamed]
  | some s => by_cases he : s = "" <;> simp [baggageOps, he, eventsNamed]

/-- C3 --- when tracing is disabled (`_provider is None`), each of the three
instrumentors returns the original handler itself. -/
theorem disabled_wrap_is_original {α : Type} (func : α)
    (toolName resourceUri promptName : String) :
    instrument_tool Option.none func toolName = WrapOutcome.original func ∧
    instrument_resource Option.none func resourceUri = WrapOutcome.original func ∧
    instrument_prompt Option.none func promptName = WrapOutcome.original func := by
  exact ⟨rfl, rfl, rfl⟩

/-- C8 --- with the `otlp_http` exporter selected, no endpoint configured and
no platform API key forcing auto-configuration, `init_telemetry` returns the
disabled state (`None`) without raising, whatever the tracing backend would
have done. -/
theorem init_disabled_on_missing_endpoint (env : OtelEnv)
    (backend : Except String ProviderHandle)
    (hkey : ¬ truthy env.golf_api_key = true)
    (hexp : strLower (env.traces_exporter.getD "console") = "otlp_http")
    (hend : ¬ truthy env.otlp_endpoint = true) :
    init_telemetry env backend = .ok Option.none := by
  simp only [init_telemetry, autoConfigure, hkey, false_and, if_neg,
    not_false_eq_true]
  simp [hexp, hend]

/-- Witness for C8 at a concrete environment: exporter `otlp_http`, no
endpoint, no API key, and a backend that would throw. -/
theorem init_disabled_on_missing_endpoint_witness :
    init_telemetry
      ⟨Option.none, some "otlp_http", Option.none, Option.none⟩
      (.error "connection refused") = .ok Option.none :=
  init_disabled_on_missing_endpoint _ _
    (by decide) (by decide) (by decide)

/-- C9 (counterexample) --- the claimed normalization maps every empty
residue to `"root"`, but for the path `"?a=1"` (and likewise the empty
path), whose pre-query prefix does not start with a slash, the code returns
the empty string, not `"root"`. -/
theorem normalizePath_empty_counterexample :
    normalizePath "?a=1" = "" ∧ normalizePathClaimed "?a=1" = "root" ∧
    normalizePath "?a=1" ≠ normalizePathClaimed "?a=1" := by
  refine ⟨by decide, by decide, by decide⟩

/-- C9 (amended) --- the code's normalization equals: take the prefix before
the first `?`; if it starts with `/`, drop that slash and substitute `root`
when nothing remains; otherwise return the prefix unchanged (even when
empty). -/
theorem normalizePath_eq_amended (path : String) :
    normalizePath path = normalizePathAmended path := rfl



/-- C2 --- for every wrapped handler of every component kind, a raised
exception is recorded onto the span, the span status is set to ERROR with
the exception's message, exactly one error event carrying the exception's
type name and message is emitted, and the exception object itself is
re-raised unchanged. -/
theorem handler_error_reraised_unchanged (name : String) (fi : FuncInfo)
    (input : CallInput) (bag : Option String) (metricsAvail : Bool)
    (elapsed : Nat) (e : Exc) :
    ErrorContract (asyncToolOps name fi input bag metricsAvail elapsed (.error e))
      "tool.execution.error" "tool.name" name e ∧
    ErrorContract (syncToolOps name fi input bag metricsAvail elapsed (.error e))
      "tool.execution.error" "tool.name" name e ∧
    ErrorContract (asyncResourceOps name fi input bag (.error e))
      "resource.read.error" "resource.uri" name e ∧
    ErrorContract (syncResourceOps name fi input bag (.error e))
      "resource.read.error" "resource.uri" name e ∧
    ErrorContract (asyncPromptOps name fi input bag (.error e))
      "prompt.generation.error" "prompt.name" name e ∧
    ErrorContract (syncPromptOps name fi input bag (.error e))
      "prompt.generation.error" "prompt.name" name e := by
  obtain ⟨ac, kc, ctx⟩ := input
  refine ⟨?_, ?_, ?_, ?_, ?_, ?_⟩ <;>
  · refine ⟨rfl, ?_, ?_, ?_⟩ <;>
    · cases ctx <;>
        simp [asyncToolOps, syncToolOps, asyncResourceOps, syncResourceOps,
          asyncPromptOps, syncPromptOps, eventsNamed_append,
          ctxOps_eventsNamed, baggageOps_eventsNamed, eventsNamed_nil,
          eventsNamed_cons_setAttr, eventsNamed_cons_recordException,
          eventsNamed_cons_setStatus, eventsNamed_cons_addEvent, errorEvent]

theorem summarize_dict_findAttr (entries : List (String × PyVal)) :
    findAttr "mcp.tool.result.count" (summarizeToolResult (.dict entries)) =
      some (.n entries.length) ∧
    findAttr "mcp.tool.result.type" (summarizeToolResult (.dict entries)) =
      some (.s "object") ∧
    findAttr "mcp.tool.result.sample_keys" (summarizeToolResult (.dict entries)) =
      (if 1 ≤ entries.length ∧ entries.length ≤ 5 then
        some (.s (joinSep "," ((entries.map Prod.fst).map truncKey)))
       else Option.none) := by
  refine ⟨?_, ?_, ?_⟩ <;>
    by_cases h : entries.length > 0 ∧ entries.length ≤ 5 <;>
      simp [summarizeToolResult, isNone, isScalar, isList, isDict, pyLen,
        findAttr, h, List.take_of_length_le, List.map_take]
  · exact h.1
  · rw [if_neg (by simpa using h)]


theorem toolOps_findAttr_skips_pre (toolName : String) (fi : FuncInfo)
    (input : CallInput) (bag : Option String) (metricsAvail : Bool)
    (elapsed : Nat) (result : PyVal) (key : String)
    (h : ¬ (key = "mcp.component.type" ∨ key = "mcp.component.name" ∨
      key = "mcp.tool.name" ∨ key = "mcp.tool.function" ∨
      key = "mcp.tool.module" ∨ key = "mcp.execution.args_count" ∨
      key = "mcp.execution.kwargs_count" ∨ key = "mcp.execution.async" ∨
      key = "mcp.context.request_id" ∨ key = "mcp.context.session_id" ∨
      key = "mcp.context.client_id" ∨ key = "mcp.context.user_id" ∨
      key = "mcp.context.tenant_id" ∨ key = "mcp.session.id")) :
    findAttr key (asyncToolOps toolName fi input bag metricsAvail elapsed
        (.ok result)).spanOps =
      findAttr key (summarizeToolResult result) ∧
    findAttr key (syncToolOps toolName fi input bag metricsAvail elapsed
        (.ok result)).spanOps =
      findAttr key (summarizeToolResult result) := by
  push_neg at h
  obtain ⟨h1, h2, h3, h4, h5, h6, h7, h8, h9, h10, h11, h12, h13, h14⟩ := h
  obtain ⟨ac, kc, ctx⟩ := input
  constructor <;>
  · cases ctx <;>
      simp [asyncToolOps, syncToolOps, findAttr_append, findAttr,
        Ne.symm h1, Ne.symm h2, Ne.symm h3, Ne.symm h4, Ne.symm h5,
        Ne.symm h6, Ne.symm h7, Ne.symm h8,
        ctxOps_findAttr _ _ (by tauto),
        baggageOps_findAttr _ _ h14]

/-- C4 --- a successful tool invocation returning a mapping carries an
entry-count attribute and the `"object"` type marker; a `sample_keys`
attribute is attached iff the mapping has 1 to 5 entries, and then lists
exactly the keys in mapping order, each truncated at 20 characters with an
ellipsis suffix; and the summary never depends on (so never attaches) the
mapping's values. -/
theorem tool_dict_result_summary (toolName : String) (fi : FuncInfo)
    (input : CallInput) (bag : Option String) (metricsAvail : Bool)
    (elapsed : Nat) (entries : List (String × PyVal))
    (hkeys : (entries.map Prod.fst).Nodup) :
    DictSummaryContract (asyncToolOps toolName fi input bag metricsAvail elapsed
      (.ok (.dict entries))).spanOps entries ∧
    DictSummaryContract (syncToolOps toolName fi input bag metricsAvail elapsed
      (.ok (.dict entries))).spanOps entries ∧
    (asyncToolOps toolName fi input bag metricsAvail elapsed
        (.ok (.dict entries))).spanOps =
      (asyncToolOps toolName fi input bag metricsAvail elapsed
        (.ok (.dict (entries.map fun p => (p.1, PyVal.none))))).spanOps ∧
    (syncToolOps toolName fi input bag metricsAvail elapsed
        (.ok (.dict entries))).spanOps =
      (syncToolOps toolName fi input bag metricsAvail elapsed
        (.ok (.dict (entries.map fun p => (p.1, PyVal.none))))).spanOps := by
  have hval : summarizeToolResult (.dict (entries.map fun p => (p.1, PyVal.none))) =
      summarizeToolResult (.dict entries) := by
    simp only [summarizeToolResult, isNone, isScalar, isList, isDict, pyLen,
      pyTypeName, List.length_map, List.map_map]
    rfl
  have hskip := fun key h => toolOps_findAttr_skips_pre toolName fi input bag
    metricsAvail elapsed (.dict entries) key h
  have hsum := summarize_dict_findAttr entries
  refine ⟨⟨?_, ?_, ?_⟩, ⟨?_, ?_, ?_⟩, ?_, ?_⟩
  · rw [(hskip _ (by decide)).1, hsum.1]
  · rw [(hskip _ (by decide)).1, hsum.2.1]
  · rw [(hskip _ (by decide)).1, hsum.2.2]
  · rw [(hskip _ (by decide)).2, hsum.1]
  · rw [(hskip _ (by decide)).2, hsum.2.1]
  · rw [(hskip _ (by decide)).2, hsum.2.2]
  · simp [asyncToolOps, hval]
  · simp [syncToolOps, hval]

/-- Witness for C4 at a concrete 3-entry mapping with one over-long key. -/
theorem tool_dict_result_summary_witness :
    ((["a", "b", "cccccccccccccccccccccccc"].Nodup) ∧
      DictSummaryContract
        (asyncToolOps "lookup" ⟨"lookup", some "tools.lookup"⟩ ⟨0, 0, Option.none⟩
          Option.none true 1
          (.ok (.dict [("a", .str "x"), ("b", .str "y"),
            ("cccccccccccccccccccccccc", .str "z")]))).spanOps
        [("a", .str "x"), ("b", .str "y"), ("cccccccccccccccccccccccc", .str "z")]) := by
  refine ⟨by decide, ?_⟩
  exact (tool_dict_result_summary "lookup" ⟨"lookup", some "tools.lookup"⟩
    ⟨0, 0, Option.none⟩ Option.none true 1
    [("a", .str "x"), ("b", .str "y"), ("cccccccccccccccccccccccc", .str "z")]
    (by decide)).1


theorem map_flipAsync_ctxFieldOp (k : String) (v : Option PyVal) :
    (ctxFieldOp k v).map flipAsyncOp = ctxFieldOp k v := by
  cases v with
  | none => rfl
  | some v => by_cases h : isNone v = true <;> simp [ctxFieldOp, h, flipAsyncOp]

theorem map_flipAsync_ctxOps (c : Ctx) :
    (ctxOps c).map flipAsyncOp = ctxOps c := by
  simp [ctxOps, map_flipAsync_ctxFieldOp]

theorem map_flipAsync_baggageOps (bag : Option String) :
    (baggageOps bag).map flipAsyncOp = baggageOps bag := by
  cases bag with
  | none => rfl
  | some s => by_cases h : s = "" <;> simp [baggageOps, h, flipAsyncOp]

theorem map_flipAsync_summarizeTool (result : PyVal) :
    (summarizeToolResult result).map flipAsyncOp = summarizeToolResult result := by
  by_cases h0 : isNone result = true
  · simp [summarizeToolResult, h0]
  · cases result <;>
      simp_all [summarizeToolResult, isNone, isScalar, isList, isDict, pyLen,
        flipAsyncOp] <;>
      split <;> simp [flipAsyncOp]

/-- C5 --- the synchronous and asynchronous tool wrappers have identical
observable contracts: same span name, same metric calls, same propagated
outcome, and the same span operations in the same order, up to the value
of the `mcp.execution.async` boolean attribute. -/
theorem sync_async_tool_same_contract (toolName : String) (fi : FuncInfo)
    (input : CallInput) (bag : Option String) (metricsAvail : Bool)
    (elapsed : Nat) (outcome : Except Exc PyVal) :
    (syncToolOps toolName fi input bag metricsAvail elapsed outcome).spanName =
      (asyncToolOps toolName fi input bag metricsAvail elapsed outcome).spanName ∧
    (syncToolOps toolName fi input bag metricsAvail elapsed outcome).spanOps =
      ((asyncToolOps toolName fi input bag metricsAvail elapsed outcome).spanOps).map
        flipAsyncOp ∧
    (syncToolOps toolName fi input bag metricsAvail elapsed outcome).metricOps =
      (asyncToolOps toolName fi input bag metricsAvail elapsed outcome).metricOps ∧
    (syncToolOps toolName fi input bag metricsAvail elapsed outcome).result =
      (asyncToolOps toolName fi input bag metricsAvail elapsed outcome).result := by
  obtain ⟨ac, kc, ctx⟩ := input
  refine ⟨?_, ?_, ?_, ?_⟩ <;>
    cases outcome <;> cases ctx <;>
      simp [syncToolOps, asyncToolOps, flipAsyncOp, map_flipAsync_ctxOps,
        map_flipAsync_baggageOps, map_flipAsync_summarizeTool]

theorem hasAttrKey_append (key : String) (l₁ l₂ : List SpanOp) :
    hasAttrKey key (l₁ ++ l₂) = (hasAttrKey key l₁ || hasAttrKey key l₂) := by
  simp [hasAttrKey, List.any_append]

theorem hasAttrKey_nil (key : String) : hasAttrKey key [] = false := rfl

theorem hasAttrKey_cons_setAttr (key k : String) (v : AttrVal) (rest : List SpanOp) :
    hasAttrKey key (.setAttr k v :: rest) = (decide (k = key) || hasAttrKey key rest) := by
  simp [hasAttrKey]

theorem hasAttrKey_cons_addEvent (key n : String) (attrs : List (String × AttrVal))
    (rest : List SpanOp) :
    hasAttrKey key (.addEvent n attrs :: rest) = hasAttrKey key rest := by
  simp [hasAttrKey]

theorem hasAttrKey_cons_recordException (key : String) (e : Exc) (rest : List SpanOp) :
    hasAttrKey key (.recordException e :: rest) = hasAttrKey key rest := by
  simp [hasAttrKey]

theorem hasAttrKey_cons_setStatus (key : String) (ok : Bool) (msg : String)
    (rest : List SpanOp) :
    hasAttrKey key (.setStatus ok msg :: rest) = hasAttrKey key rest := by
  simp [hasAttrKey]

theorem hasAttrKey_ctxFieldOp (key k : String) (v : Option PyVal)
    (h : k ≠ key) : hasAttrKey key (ctxFieldOp k v) = false := by
  cases v with
  | none => rfl
  | some v =>
    by_cases hn : isNone v = true <;> simp [ctxFieldOp, hn, hasAttrKey, h]

theorem hasAttrKey_ctxOps (key : String) (c : Ctx)
    (h : ¬ (key = "mcp.context.request_id" ∨ key = "mcp.context.session_id" ∨
      key = "mcp.context.client_id" ∨ key = "mcp.context.user_id" ∨
      key = "mcp.context.tenant_id")) :
    hasAttrKey key (ctxOps c) = false := by
  push_neg at h
  obtain ⟨h1, h2, h3, h4, h5⟩ := h
  simp [ctxOps, hasAttrKey_append,
    hasAttrKey_ctxFieldOp _ _ _ (Ne.symm h1), hasAttrKey_ctxFieldOp _ _ _ (Ne.symm h2),
    hasAttrKey_ctxFieldOp _ _ _ (Ne.symm h3), hasAttrKey_ctxFieldOp _ _ _ (Ne.symm h4),
    hasAttrKey_ctxFieldOp _ _ _ (Ne.symm h5)]

theorem hasAttrKey_baggageOps (key : String) (bag : Option String)
    (h : key ≠ "mcp.session.id") : hasAttrKey key (baggageOps bag) = false := by
  cases bag with
  | none => rfl
  | some s => by_cases he : s = "" <;> simp [baggageOps, he, hasAttrKey, Ne.symm h]

theorem hasAttrKey_summarizeResource (key : String) (result : PyVal)
    (h : ¬ (key = "mcp.resource.result.size" ∨ key = "mcp.resource.result.type" ∨
      key = "mcp.resource.result.length" ∨ key = "mcp.resource.result.size_bytes" ∨
      key = "mcp.resource.result.keys_count" ∨ key = "mcp.resource.result.items_count")) :
    hasAttrKey key (summarizeResourceResult result) = false := by
  push_neg at h
  obtain ⟨h1, h2, h3, h4, h5, h6⟩ := h
  cases result <;>
    simp [summarizeResourceResult, pyLen, isStr, isBytes, isDict, isList,
      hasAttrKey_append, hasAttrKey, Ne.symm h1, Ne.symm h2, Ne.symm h3,
      Ne.symm h4, Ne.symm h5, Ne.symm h6]

theorem hasAttrKey_summarizePrompt (key : String) (result : PyVal)
    (h : ¬ (key = "mcp.prompt.result.message_count" ∨ key = "mcp.prompt.result.type" ∨
      key = "mcp.prompt.result.roles" ∨ key = "mcp.prompt.result.role_counts" ∨
      key = "mcp.prompt.result.length")) :
    hasAttrKey key (summarizePromptResult result) = false := by
  push_neg at h
  obtain ⟨h1, h2, h3, h4, h5⟩ := h
  cases result
  case list msgs =>
    by_cases hr : (msgs.filterMap msgRole).isEmpty <;>
      simp [summarizePromptResult, hr, hasAttrKey_append, hasAttrKey,
        Ne.symm h1, Ne.symm h2, Ne.symm h3, Ne.symm h4, Ne.symm h5]
  all_goals
    simp [summarizePromptResult, hasAttrKey_append, hasAttrKey, Ne.symm h1,
      Ne.symm h2, Ne.symm h3, Ne.symm h4, Ne.symm h5]




/-- C6 (counterexample) --- a concrete resource invocation carries neither a
positional-argument-count nor a keyword-argument-count attribute, although
it was called with 2 positional and 1 keyword argument. -/
theorem resource_span_lacks_arg_counts :
    hasAttrKey "mcp.execution.args_count"
      (asyncResourceOps "items" ⟨"read_items", some "resources.items"⟩
        ⟨2, 1, Option.none⟩ Option.none (.ok (.str "ok"))).spanOps = false ∧
    hasAttrKey "mcp.execution.kwargs_count"
      (asyncResourceOps "items" ⟨"read_items", some "resources.items"⟩
        ⟨2, 1, Option.none⟩ Option.none (.ok (.str "ok"))).spanOps = false := by
  refine ⟨by decide, by decide⟩

/-- C6 (amended) --- every wrapped invocation carries the component kind and
name, the callable's declared name and module, and the sync/async boolean;
the positional- and keyword-argument counts are carried by tool spans only:
resource and prompt spans do not attach them. -/
theorem fixed_attrs_by_component_kind (name : String) (fi : FuncInfo)
    (input : CallInput) (bag : Option String) (metricsAvail : Bool)
    (elapsed : Nat) (outcome : Except Exc PyVal) :
    ToolFixedAttrs (asyncToolOps name fi input bag metricsAvail elapsed
      outcome).spanOps name fi input true ∧
    ToolFixedAttrs (syncToolOps name fi input bag metricsAvail elapsed
      outcome).spanOps name fi input false ∧
    ResourceFixedAttrs (asyncResourceOps name fi input bag outcome).spanOps
      name fi true ∧
    ResourceFixedAttrs (syncResourceOps name fi input bag outcome).spanOps
      name fi false ∧
    PromptFixedAttrs (asyncPromptOps name fi input bag outcome).spanOps
      name fi true ∧
    PromptFixedAttrs (syncPromptOps name fi input bag outcome).spanOps
      name fi false := by
  obtain ⟨ac, kc, ctx⟩ := input
  have hc1 : ∀ c, hasAttrKey "mcp.execution.args_count" (ctxOps c) = false :=
    fun c => hasAttrKey_ctxOps _ c (by decide)
  have hc2 : ∀ c, hasAttrKey "mcp.execution.kwargs_count" (ctxOps c) = false :=
    fun c => hasAttrKey_ctxOps _ c (by decide)
  have hb1 : ∀ b, hasAttrKey "mcp.execution.args_count" (baggageOps b) = false :=
    fun b => hasAttrKey_baggageOps _ b (by decide)
  have hb2 : ∀ b, hasAttrKey "mcp.execution.kwargs_count" (baggageOps b) = false :=
    fun b => hasAttrKey_baggageOps _ b (by decide)
  have hr1 : ∀ r, hasAttrKey "mcp.execution.args_count" (summarizeResourceResult r) = false :=
    fun r => hasAttrKey_summarizeResource _ r (by decide)
  have hr2 : ∀ r, hasAttrKey "mcp.execution.kwargs_count" (summarizeResourceResult r) = false :=
    fun r => hasAttrKey_summarizeResource _ r (by decide)
  have hp1 : ∀ r, hasAttrKey "mcp.execution.args_count" (summarizePromptResult r) = false :=
    fun r => hasAttrKey_summarizePrompt _ r (by decide)
  have hp2 : ∀ r, hasAttrKey "mcp.execution.kwargs_count" (summarizePromptResult r) = false :=
    fun r => hasAttrKey_summarizePrompt _ r (by decide)
  refine ⟨⟨?_, ?_, ?_, ?_, ?_, ?_, ?_⟩, ⟨?_, ?_, ?_, ?_, ?_, ?_, ?_⟩,
    ⟨?_, ?_, ?_, ?_, ?_, ?_, ?_⟩, ⟨?_, ?_, ?_, ?_, ?_, ?_, ?_⟩,
    ⟨?_, ?_, ?_, ?_, ?_, ?_, ?_⟩, ⟨?_, ?_, ?_, ?_, ?_, ?_, ?_⟩⟩ <;>
    cases outcome <;> cases ctx <;>
      simp [asyncToolOps, syncToolOps, asyncResourceOps, syncResourceOps,
        asyncPromptOps, syncPromptOps, findAttr_append, findAttr,
        hasAttrKey_append, hasAttrKey_nil, hasAttrKey_cons_setAttr,
        hasAttrKey_cons_addEvent, hasAttrKey_cons_recordException,
        hasAttrKey_cons_setStatus, hc1, hc2, hb1, hb2, hr1, hr2, hp1, hp2]

theorem summarize_class_findAttr (result : PyVal) :
    findAttr "mcp.tool.result.class" (summarizeToolResult result) =
      (if isNone result then Option.none else some (.s (pyTypeName result))) := by
  cases result
  case dict entries =>
    by_cases h : entries.length > 0 ∧ entries.length ≤ 5 <;>
      simp [summarizeToolResult, isNone, isScalar, isList, isDict, pyLen,
        pyTypeName, h, findAttr, findAttr_append]
  case obj t len r =>
    cases len <;>
      simp [summarizeToolResult, isNone, isScalar, isList, isDict, pyLen,
        pyTypeName, findAttr, findAttr_append]
  all_goals
    simp [summarizeToolResult, isNone, isScalar, isList, isDict, pyLen,
      pyTypeName, findAttr, findAttr_append]

/-- C7 (counterexample) --- a tool invocation returning `None` attaches no
`mcp.tool.result.class` attribute at all, and a resource invocation
returning an `int` attaches no attribute carrying the concrete runtime type
name `"int"` (the resource summarizer only knows the fixed markers
text/binary/object/array). -/
theorem result_type_name_not_always_attached :
    hasAttrKey "mcp.tool.result.class"
      (asyncToolOps "t" ⟨"t_fn", some "tools.t"⟩ ⟨0, 0, Option.none⟩
        Option.none true 1 (.ok .none)).spanOps = false ∧
    hasAttrStrVal "int"
      (asyncResourceOps "items" ⟨"read_items", some "resources.items"⟩
        ⟨0, 0, Option.none⟩ Option.none (.ok (.int 3))).spanOps = false := by
  refine ⟨by decide, by decide⟩

/-- C7 (amended) --- for tool invocations, the concrete runtime type name of
the result is attached as `mcp.tool.result.class` whenever the result is
not `None`, whichever summarization branch matched; a `None` result (and
the resource/prompt wrappers in general) attach no such attribute. -/
theorem tool_result_class_always_attached (toolName : String) (fi : FuncInfo)
    (input : CallInput) (bag : Option String) (metricsAvail : Bool)
    (elapsed : Nat) (result : PyVal) :
    findAttr "mcp.tool.result.class"
      (asyncToolOps toolName fi input bag metricsAvail elapsed (.ok result)).spanOps =
      (if isNone result then Option.none else some (.s (pyTypeName result))) ∧
    findAttr "mcp.tool.result.class"
      (syncToolOps toolName fi input bag metricsAvail elapsed (.ok result)).spanOps =
      (if isNone result then Option.none else some (.s (pyTypeName result))) := by
  have hskip := toolOps_findAttr_skips_pre toolName fi input bag metricsAvail
    elapsed result "mcp.tool.result.class" (by decide)
  exact ⟨hskip.1.trans (summarize_class_findAttr result),
    hskip.2.trans (summarize_class_findAttr result)⟩


theorem emptySess_inv : SessInv emptySess := by
  refine ⟨List.nodup_nil, rfl, by decide⟩

theorem map_fst_filter_mem (l : List (Nat × Nat)) (S : List Nat) :
    (l.filter (fun p => p.1 ∈ S)).map Prod.fst =
      (l.map Prod.fst).filter (fun a => a ∈ S) := by
  induction l with
  | nil => rfl
  | cons hd tl ih =>
    by_cases h : hd.1 ∈ S <;> simp [List.filter_cons, h, ih]

theorem dictSet_fresh (l : List (Nat × Nat)) (k v : Nat)
    (h : k ∉ l.map Prod.fst) : dictSet l k v = l ++ [(k, v)] := by
  have hc : ¬ (l.any (fun p => p.1 = k) = true) := by
    rw [List.any_eq_true]
    rintro ⟨p, hp, hpk⟩
    have hk : p.1 = k := of_decide_eq_true hpk
    exact h (hk ▸ List.mem_map_of_mem Prod.fst hp)
  rw [dictSet, if_neg hc]

theorem lookupKey_mem_isSome (k : Nat) (l : List (Nat × Nat))
    (h : k ∈ l.map Prod.fst) : lookupKey k l ≠ Option.none := by
  induction l with
  | nil => simp at h
  | cons hd tl ih =>
    by_cases hk : hd.1 = k
    · simp [lookupKey, hk]
    · simp only [List.map_cons, List.mem_cons] at h
      rcases h with h | h
      · exact absurd h.symm hk
      · simpa [lookupKey, hk] using ih h

theorem lastN_length_le (k : Nat) (l : List α) : (lastN k l).length ≤ k := by
  simp only [lastN, List.length_drop]
  omega

theorem nodup_length_le_of_subset (l S : List Nat) (hn : l.Nodup)
    (hsub : ∀ x ∈ l, x ∈ S) : l.length ≤ S.length := by
  calc l.length = l.toFinset.card := (List.toFinset_card_of_nodup hn).symm
    _ ≤ S.toFinset.card := by
        refine Finset.card_le_card ?_
        intro x hx
        rw [List.mem_toFinset] at hx ⊢
        exact hsub x hx
    _ ≤ S.length := List.toFinset_card_le S

theorem observe_preserves_inv (enum : List Nat → List Nat) (st : SessState)
    (sid now : Nat) (h : SessInv st) : SessInv (observe enum st sid now).1 := by
  obtain ⟨hnd, hkeys, hlen⟩ := h
  by_cases hmem : sid ∈ st.seen
  · have hnocompact : ¬ st.seen.length > SESSION_CAP := by omega
    simp only [observe, if_pos hmem, if_neg hnocompact]
    exact ⟨hnd, hkeys, hlen⟩
  · have hfresh : sid ∉ st.startTimes.map Prod.fst := by rw [hkeys]; exact hmem
    have hset := dictSet_fresh st.startTimes sid now hfresh
    have hnd1 : (st.seen ++ [sid]).Nodup := by
      simp [List.nodup_append, hnd, hmem]
    have hkeys1 : (dictSet st.startTimes sid now).map Prod.fst = st.seen ++ [sid] := by
      rw [hset, List.map_append, hkeys]
      rfl
    by_cases hcomp : st.seen.length + 1 > SESSION_CAP
    · have hc : (st.seen ++ [sid]).length > SESSION_CAP := by
        simpa using hcomp
      simp only [observe, if_neg hmem, if_pos hc]
      set S := lastN SESSION_KEEP (enum (st.seen ++ [sid])) with hS
      refine ⟨List.Nodup.filter _ hnd1, ?_, ?_⟩
      · dsimp only
        rw [map_fst_filter_mem, hkeys1]
      · dsimp only
        have hsub : ∀ x ∈ (st.seen ++ [sid]).filter (fun s => s ∈ S), x ∈ S := by
          intro x hx
          have := List.of_mem_filter hx
          simpa using this
        have h1 := nodup_length_le_of_subset _ S (List.Nodup.filter _ hnd1) hsub
        have h2 : S.length ≤ SESSION_KEEP :=
          lastN_length_le SESSION_KEEP (enum (st.seen ++ [sid]))
        have h3 : SESSION_KEEP ≤ SESSION_CAP := by decide
        omega
    · have hc : ¬ (st.seen ++ [sid]).length > SESSION_CAP := by
        simpa using hcomp
      simp only [observe, if_neg hmem, if_neg hc]
      exact ⟨hnd1, hkeys1, by simpa using Nat.le_of_not_lt hc⟩

theorem observe_continuing_event (enum : List Nat → List Nat) (st : SessState)
    (sid now : Nat) (hmem : sid ∈ st.seen) :
    (observe enum st sid now).2 =
      SessionEvent.continuing ((lookupKey sid st.startTimes).map (fun t0 => now - t0)) := by
  simp [observe, hmem]

theorem observe_new_event (enum : List Nat → List Nat) (st : SessState)
    (sid now : Nat) (hmem : sid ∉ st.seen) :
    (observe enum st sid now).2 = SessionEvent.new := by
  simp [observe, hmem]

theorem observeOpt_preserves_inv (enum : List Nat → List Nat) (st : SessState)
    (sid : Option Nat) (now : Nat) (h : SessInv st) :
    SessInv (observeOpt enum st sid now).1 := by
  cases sid with
  | none => exact h
  | some sid => exact observe_preserves_inv enum st sid now h

theorem runDispatch_inv (enum : List Nat → List Nat) (st : SessState)
    (events : List (Option Nat × Nat)) (h : SessInv st) :
    SessInv (runDispatch enum st events) := by
  induction events generalizing st with
  | nil => exact h
  | cons ev rest ih =>
    exact ih _ (observeOpt_preserves_inv enum st ev.1 ev.2 h)

/-- C10 --- starting from the empty registry, after any sequence of
dispatches (under any iteration order the Python set exhibits), the key set
of the start-time dict is exactly the set of seen session ids, its size is
bounded by the registry cap, and a request classified as `continuing`
always finds its start time (the recorded duration is present). -/
theorem session_registry_consistency (enum : List Nat → List Nat)
    (events : List (Option Nat × Nat)) :
    (∀ x, x ∈ (runDispatch enum emptySess events).startTimes.map Prod.fst ↔
      x ∈ (runDispatch enum emptySess events).seen) ∧
    (runDispatch enum emptySess events).startTimes.length ≤ SESSION_CAP ∧
    (∀ sid now st2 d,
      observe enum (runDispatch enum emptySess events) sid now =
        (st2, SessionEvent.continuing d) → d ≠ Option.none) := by
  obtain ⟨hnd, hkeys, hlen⟩ := runDispatch_inv enum emptySess events emptySess_inv
  refine ⟨fun x => by rw [hkeys], ?_, ?_⟩
  · have : ((runDispatch enum emptySess events).startTimes.map Prod.fst).length =
        (runDispatch enum emptySess events).seen.length := by rw [hkeys]
    simpa using this.le.trans hlen
  · intro sid now st2 d heq
    have hev := congrArg Prod.snd heq
    by_cases hmem : sid ∈ (runDispatch enum emptySess events).seen
    · have hin : sid ∈ (runDispatch enum emptySess events).startTimes.map Prod.fst := by
        rw [hkeys]; exact hmem
      have hlk := lookupKey_mem_isSome sid (runDispatch enum emptySess events).startTimes hin
      rw [observe_continuing_event enum _ sid now hmem] at hev
      simp only at hev
      have hd : (lookupKey sid (runDispatch enum emptySess events).startTimes).map
          (fun t0 => now - t0) = d := by
        injection hev
      rw [← hd]
      simp only [ne_eq, Option.map_eq_none']
      exact hlk
    · rw [observe_new_event enum _ sid now hmem] at hev
      simp only at hev
      cases hev

theorem runSeq_append (enum : List Nat → List Nat) (st : SessState)
    (a b : List Nat) :
    runSeq enum st (a ++ b) = runSeq enum (runSeq enum st a) b := by
  simp [runSeq, List.foldl_append]

theorem range_filter_lt (k n : Nat) (h : k ≤ n) :
    (List.range n).filter (fun s => decide (s < k)) = List.range k := by
  induction n with
  | zero =>
    have : k = 0 := Nat.le_zero.mp h
    subst this
    rfl
  | succ n ih =>
    rcases Nat.lt_or_ge n k with hk | hk
    · have hkeq : k = n + 1 := Nat.le_antisymm h hk
      subst hkeq
      rw [List.filter_eq_self.mpr]
      intro a ha
      simp [List.mem_range.mp ha]
    · rw [List.range_succ, List.filter_append, ih hk]
      have hnk : ¬ (n < k) := Nat.not_lt.mpr hk
      simp [hnk]

/-- Inserting `n ≤ M` distinct session ids `0..n-1` (each at time 0) never
triggers compaction and fills both containers in insertion order. -/
theorem runSeq_range (enum : List Nat → List Nat) (n : Nat)
    (hn : n ≤ SESSION_CAP) :
    runSeq enum emptySess (List.range n) =
      ⟨List.range n, (List.range n).map (fun i => (i, 0))⟩ := by
  induction n with
  | zero => rfl
  | succ n ih =>
    have hn' : n ≤ SESSION_CAP := Nat.le_of_succ_le hn
    have hmem : n ∉ List.range n := by simp
    have hfresh : n ∉ ((List.range n).map (fun i => (i, (0 : Nat)))).map Prod.fst := by
      simp
    have hnc : ¬ ((List.range n ++ [n]).length > SESSION_CAP) := by
      simp only [List.length_append, List.length_range, List.length_cons,
        List.length_nil]
      omega
    rw [List.range_succ, runSeq_append, ih hn']
    simp only [runSeq, List.foldl_cons, List.foldl_nil]
    simp only [observe, hmem, if_false, if_neg hmem,
      dictSet_fresh _ _ _ hfresh, if_neg hnc]
    rw [← List.range_succ]
    simp [List.range_succ, List.map_append]

/-- `observe` on a fresh session id when the insertion pushes the registry
past the cap: both containers are extended and then filtered down to the
ids falling in the last `K` positions of the set's iteration order. -/
theorem observe_fresh_compacting (enum : List Nat → List Nat)
    (seen : List Nat) (times : List (Nat × Nat)) (sid now : Nat)
    (hmem : sid ∉ seen) (hfresh : sid ∉ times.map Prod.fst)
    (hlen : (seen ++ [sid]).length > SESSION_CAP) :
    observe enum ⟨seen, times⟩ sid now =
      (⟨(seen ++ [sid]).filter
          (fun s => s ∈ lastN SESSION_KEEP (enum (seen ++ [sid]))),
        (times ++ [(sid, now)]).filter
          (fun p => p.1 ∈ lastN SESSION_KEEP (enum (seen ++ [sid])))⟩,
       SessionEvent.new) := by
  simp only [observe, if_neg hmem, dictSet_fresh _ _ _ hfresh, if_pos hlen]

theorem lastN_reverse_range (n k : Nat) (h : k ≤ n) :
    lastN k ((List.range n).reverse) = (List.range k).reverse := by
  simp only [lastN, List.length_reverse, List.length_range]
  rw [List.drop_reverse]
  congr 1
  rw [List.length_range]
  have hsub : n - (n - k) = k := by omega
  rw [hsub, List.take_range, Nat.min_eq_left h]

/-- C1 --- evaluation of the middleware session registry on the failing
input: the 10001 distinct session ids `0..10000` inserted in order, with
the Python set iterated in reversed order (one of the arbitrary orders a
`set` may exhibit, since `set` guarantees no order).  The compaction pass
retains exactly `{0..4999}` --- the 5000 **oldest** ids --- and drops the
start-time records of the others, while the 5000 most recently inserted
ids are `{5001..10000}`: the most recent id 10000 is evicted although the
claim (and the code's own comment) say it must be retained. -/
theorem session_compaction_keeps_arbitrary_ids :
    (runSeq List.reverse emptySess (List.range 10001)).seen = List.range 5000 ∧
    (runSeq List.reverse emptySess (List.range 10001)).startTimes.map Prod.fst =
      List.range 5000 ∧
    (10000 : Nat) ∉ (runSeq List.reverse emptySess (List.range 10001)).seen ∧
    (10000 : Nat) ∈ lastN SESSION_KEEP (List.range 10001) := by
  have hrange : List.range 10001 = List.range 10000 ++ [10000] := by
    have h1 : (10001 : Nat) = 10000 + 1 := rfl
    rw [h1, List.range_succ]
  have hstep : runSeq List.reverse emptySess (List.range 10001) =
      (observe List.reverse
        ⟨List.range 10000, (List.range 10000).map (fun i => (i, 0))⟩ 10000 0).1 := by
    rw [hrange, runSeq_append, runSeq_range List.reverse 10000 (by decide)]
    rfl
  have hlen : ((List.range 10000 ++ [(10000 : Nat)]).length > SESSION_CAP) := by
    rw [List.length_append, List.length_range]
    decide
  have hobs := observe_fresh_compacting List.reverse (List.range 10000)
    ((List.range 10000).map (fun i => (i, 0))) 10000 0
    (by simp) (by simp) hlen
  have hS : lastN SESSION_KEEP (List.reverse (List.range 10000 ++ [10000])) =
      (List.range 5000).reverse := by
    rw [← hrange, lastN_reverse_range 10001 SESSION_KEEP (by decide)]
    rfl
  rw [hS] at hobs
  have hfilter : ∀ l : List Nat,
      l.filter (fun s => s ∈ (List.range 5000).reverse) =
        l.filter (fun s => decide (s < 5000)) := by
    intro l
    refine List.filter_congr ?_
    intro a _
    simp [List.mem_reverse, List.mem_range]
  have hseen : (List.range 10000 ++ [(10000 : Nat)]).filter
      (fun s => s ∈ (List.range 5000).reverse) = List.range 5000 := by
    rw [← hrange, hfilter, range_filter_lt 5000 10001 (by decide)]
  have hobsSeen := congrArg (fun x => x.1.seen) hobs
  have hobsTimes := congrArg (fun x => x.1.startTimes) hobs
  dsimp only at hobsSeen hobsTimes
  have hseen2 : ((runSeq List.reverse emptySess (List.range 10001)).seen =
      List.range 5000) := by
    rw [hstep, hobsSeen]
    exact hseen
  refine ⟨hseen2, ?_, ?_, ?_⟩
  · rw [hstep, hobsTimes]
    have hmf := map_fst_filter_mem
      (((List.range 10000).map (fun i => (i, 0))) ++ [(10000, 0)])
      ((List.range 5000).reverse)
    rw [hmf]
    have hk : (((List.range 10000).map (fun i => (i, (0 : Nat)))) ++
        [((10000 : Nat), (0 : Nat))]).map Prod.fst = List.range 10000 ++ [10000] := by
      simp only [List.map_append, List.map_map]
      have hcomp : (Prod.fst ∘ fun i : Nat => (i, (0 : Nat))) = id := rfl
      rw [hcomp, List.map_id]
      rfl
    rw [hk, hseen]
  · rw [hseen2]
    simp
  · have h1 : lastN SESSION_KEEP (List.range 10001) =
        (List.range 10001).drop 5001 := by
      rw [lastN, List.length_range]
      have h2 : (10001 : Nat) - SESSION_KEEP = 5001 := by decide
      rw [h2]
    rw [h1]
    have h2 : (10001 : Nat) = 5001 + 5000 := rfl
    rw [h2, List.range_add, List.drop_left' (by simp)]
    refine List.mem_map.mpr ⟨4999, by simp, by decide⟩

end GolfTelemetry
